import Mathlib

/-!
Shallow embedding of `src/clustering/administration/tables/table_config.cc`
(RethinkDB table-configuration reconciliation engine): the shard/table
config codec, its validator, and the `write_row` reconciliation transaction.

External collaborators (identifier resolvers, default config generator,
split-point recalculator) are modelled as function-valued parameters in an
`AdminEnv` record, matching the spec's "external collaborators with fixed
contracts".  Helpers that live outside the provided excerpt
(`datum_adapter`, `metadata.hpp`) are modelled from the spec and marked so.
-/

namespace TableConfigSpec

/-- Server identifiers (`server_id_t`, a UUID in the source) are modelled
as natural numbers. -/
abbrev ServerId := Nat

/-- Database identifiers (`database_id_t`). -/
abbrev DatabaseId := Nat

/-- Table identifiers (`namespace_id_t`). -/
abbrev TableId := Nat

/-- `nil_uuid()`: the nil sentinel identifier. -/
def nilUuid : Nat := 0

/-- The query-language document value (`ql::datum_t`), restricted to the
constructors this engine touches.  Objects are association lists of
fields; order of fields is representational. -/
inductive Datum where
  | null : Datum
  | bool (b : Bool) : Datum
  | num (n : Int) : Datum
  | str (s : String) : Datum
  | arr (elems : List Datum) : Datum
  | obj (fields : List (String × Datum)) : Datum

mutual

/-- Structural equality test on document values (`ql::datum_t::operator==`). -/
def Datum.beq : Datum → Datum → Bool
  | .null, .null => true
  | .bool a, .bool b => a == b
  | .num a, .num b => a == b
  | .str a, .str b => a == b
  | .arr xs, .arr ys => Datum.beqList xs ys
  | .obj xs, .obj ys => Datum.beqFields xs ys
  | _, _ => false

/-- Elementwise equality of datum arrays. -/
def Datum.beqList : List Datum → List Datum → Bool
  | [], [] => true
  | x :: xs, y :: ys => Datum.beq x y && Datum.beqList xs ys
  | _, _ => false

/-- Elementwise equality of object field lists. -/
def Datum.beqFields : List (String × Datum) → List (String × Datum) → Bool
  | [], [] => true
  | (k, v) :: xs, (k', v') :: ys =>
      k == k' && Datum.beq v v' && Datum.beqFields xs ys
  | _, _ => false

end

/-- `get_type() == R_NULL`. -/
def Datum.isNull : Datum → Bool
  | .null => true
  | _ => false

/-- A crude rendering of `ql::datum_t::print()`, used only inside error
messages whose exact text no claim depends on. -/
def Datum.print : Datum → String
  | .null => "null"
  | .bool b => if b then "true" else "false"
  | .num n => toString n
  | .str s => "\"" ++ s ++ "\""
  | .arr _ => "an array"
  | .obj _ => "an object"

/-- First-match lookup of a field in an object's field list
(`ql::datum_t::get_field`). -/
def lookupField (fields : List (String × Datum)) (key : String) : Option Datum :=
  match fields with
  | [] => none
  | (k, v) :: rest => if k = key then some v else lookupField rest key

/-- `converter_from_datum_object_t::get` failure message for a missing
field.  Modelled from the spec: the decode direction requires each listed
field to be present. -/
def missingFieldMsg (key : String) : String :=
  "Expected a field named `" ++ key ++ "`"

/-- `converter_from_datum_object_t::check_no_extra_keys`: every key of the
object must have been consumed.  Modelled from the spec ("reject unknown
keys at the end"). -/
def checkNoExtraKeys (fields : List (String × Datum)) (used : List String) : Bool :=
  fields.all (fun kv => kv.1 ∈ used)

/-- One shard's placement (`table_config_t::shard_t`): the replica set —
kept as a strictly sorted list, modelling `std::set<server_id_t>` — and
the director. -/
structure ShardConfig where
  replicas : List ServerId
  director : ServerId
deriving DecidableEq

/-- A table's full placement (`table_config_t`). -/
structure TableConfig where
  shards : List ShardConfig
deriving DecidableEq

/-- The external collaborators of the engine, as fixed contracts. -/
structure AdminEnv where
  /-- `convert_server_id_from_datum`: resolve a document value to a server
  identifier, or fail with a message. -/
  resolveServerFromDatum : Datum → Except String ServerId
  /-- `convert_server_id_to_datum`: resolve a server identifier back to a
  document value; `none` when the server was permanently removed. -/
  resolveServerToDatum : ServerId → Option Datum
  /-- `convert_uuid_from_datum`. -/
  uuidFromDatum : Datum → Except String TableId
  /-- `convert_uuid_to_datum`. -/
  uuidToDatum : TableId → Datum
  /-- `get_db_identifier`: the display identity of a database, used to
  compare the payload's `db` field without re-resolving to an id. -/
  getDbIdentifier : DatabaseId → Datum
  /-- Modelled from the spec: the display name of the owning database
  (the source's `new_db_name`, computed outside this excerpt), used in
  name-collision messages. -/
  getDbName : DatabaseId → String
  /-- `convert_database_id_from_datum` applied to the current database
  metadata view. -/
  resolveDbFromDatum : Datum → Except String DatabaseId
  /-- `calculate_split_points_intelligently` (external Split-Point
  Recalculator): table id, new desired shard count, old scheme. -/
  calculateSplitPoints : TableId → Nat → Nat → Except String Nat

/-- `std::set::insert` on the sorted replica list: `none` when the element
was already present (`pair.second == false`). -/
def setInsert (s : ServerId) : List ServerId → Option (List ServerId)
  | [] => some [s]
  | x :: xs =>
    if s < x then some (s :: x :: xs)
    else if s = x then none
    else (setInsert s xs).map (fun ys => x :: ys)

/-- The `replicas` decoding loop of `convert_table_config_shard_from_datum`:
resolve each array element and insert it into the replica set, failing on
a resolution error or a repeated server. -/
def decodeReplicas (env : AdminEnv) : List Datum → List ServerId →
    Except String (List ServerId)
  | [], acc => .ok acc
  | d :: ds, acc =>
    match env.resolveServerFromDatum d with
    | .error e => .error ("In `replicas`: " ++ e)
    | .ok sid =>
      match setInsert sid acc with
      | none => .error "In `replicas`: A server is listed more than once."
      | some acc' => decodeReplicas env ds acc'

/-- `convert_table_config_shard_from_datum`: decode one shard document. -/
def convert_table_config_shard_from_datum (env : AdminEnv) (datum : Datum) :
    Except String ShardConfig :=
  match datum with
  | .obj fields =>
    match lookupField fields "replicas" with
    | none => .error (missingFieldMsg "replicas")
    | some replicasDatum =>
      match replicasDatum with
      | .arr elems =>
        match decodeReplicas env elems [] with
        | .error e => .error e
        | .ok replicas =>
          if replicas = [] then
            .error "You must specify at least one replica for each shard."
          else
            match lookupField fields "director" with
            | none => .error (missingFieldMsg "director")
            | some directorDatum =>
              if directorDatum.isNull then
                if checkNoExtraKeys fields ["replicas", "director"] then
                  .ok { replicas := replicas, director := nilUuid }
                else .error "Unexpected key(s)."
              else
                match env.resolveServerFromDatum directorDatum with
                | .error e => .error ("In `director`: " ++ e)
                | .ok director =>
                  if director ∈ replicas then
                    if checkNoExtraKeys fields ["replicas", "director"] then
                      .ok { replicas := replicas, director := director }
                    else .error "Unexpected key(s)."
                  else .error "The director must be one of the replicas."
      | other => .error ("In `replicas`: Expected an array, got " ++ other.print)
  | other => .error ("Expected an object, got " ++ other.print)

/-- `convert_table_config_shard_to_datum`: encode one shard.  Replicas
whose identifier no longer resolves are dropped; a director that fails to
resolve is encoded as `null`. -/
def convert_table_config_shard_to_datum (env : AdminEnv) (shard : ShardConfig) :
    Datum :=
  .obj [("replicas", .arr (shard.replicas.filterMap env.resolveServerToDatum)),
        ("director",
          match env.resolveServerToDatum shard.director with
          | some d => d
          | none => .null)]

/-- Modelled from the spec: `versioned_t<T>` — a value with a version
stamp; concurrent edits merge per field, last writer (highest stamp)
wins. -/
structure Versioned (α : Type) where
  stamp : Nat
  value : α
deriving DecidableEq

/-- `versioned_t::set`: replace the value, advancing the version stamp. -/
def Versioned.set {α : Type} (v : Versioned α) (x : α) : Versioned α :=
  { stamp := v.stamp + 1, value := x }

/-- Modelled from the spec: the semilattice join on a versioned field —
the higher stamp wins, ties keep the left value. -/
def Versioned.join {α : Type} (a b : Versioned α) : Versioned α :=
  if a.stamp < b.stamp then b else a

/-- `table_replication_info_t`: the decoded configuration plus the shard
scheme.  The scheme (`table_shard_scheme_t`) is opaque to this engine and
modelled as a bare number. -/
structure ReplicationInfo where
  config : TableConfig
  shardScheme : Nat
deriving DecidableEq

/-- `table_shard_scheme_t::one_shard()`: the trivial single-shard scheme. -/
def oneShardScheme : Nat := 1

/-- `namespace_semilattice_metadata_t`: one table's metadata entry, each
field independently versioned. -/
structure TableMeta where
  name : Versioned String
  database : Versioned DatabaseId
  primaryKey : Versioned String
  replicationInfo : Versioned ReplicationInfo
deriving DecidableEq

/-- Modelled from the spec: `deletable_t<T>` — live data plus a deleted
flag; deleted entries remain addressable. -/
structure Deletable (α : Type) where
  value : α
  deleted : Bool
deriving DecidableEq

/-- The shared cluster metadata map (`namespaces_semilattice_metadata_t`),
as an association list from table identifier to deletable entry. -/
abbrev MetadataMap := List (TableId × Deletable TableMeta)

/-- First-match lookup (`std::map::find`). -/
def mapFind (md : MetadataMap) (k : TableId) : Option (Deletable TableMeta) :=
  match md with
  | [] => none
  | (k', v) :: rest => if k' = k then some v else mapFind rest k

/-- `std::map` insert-or-assign (`namespaces[table_id] = ...` and in-place
mutation through an iterator). -/
def mapSet (md : MetadataMap) (k : TableId) (v : Deletable TableMeta) : MetadataMap :=
  match md with
  | [] => [(k, v)]
  | (k', v') :: rest =>
    if k' = k then (k, v) :: rest else (k', v') :: mapSet rest k v

/-- Modelled from the spec: fieldwise semilattice join of two metadata
entries. -/
def TableMeta.join (a b : TableMeta) : TableMeta :=
  { name := a.name.join b.name,
    database := a.database.join b.database,
    primaryKey := a.primaryKey.join b.primaryKey,
    replicationInfo := a.replicationInfo.join b.replicationInfo }

/-- Modelled from the spec: join of deletable entries — deletion is
permanent (joins as `or`), live fields join fieldwise. -/
def Deletable.join (a b : Deletable TableMeta) : Deletable TableMeta :=
  { value := a.value.join b.value, deleted := a.deleted || b.deleted }

/-- Modelled from the spec: the cluster-wide join/merge primitive
(`semilattice_readwrite_view_t::join`) — keywise join, keeping entries
present on either side. -/
def mapJoin (a b : MetadataMap) : MetadataMap :=
  a.map (fun kv =>
    match mapFind b kv.1 with
    | some w => (kv.1, kv.2.join w)
    | none => kv)
  ++ b.filter (fun kv => (mapFind a kv.1).isNone)

/-- Modelled from the spec: `search_metadata_by_uuid` — an entry counts as
existing only if present and not deleted. -/
def existsNonDeleted (md : MetadataMap) (k : TableId) : Bool :=
  match mapFind md k with
  | some entry => !entry.deleted
  | none => false

/-- Modelled from the spec: the name-collision search
(`metadata_searcher_t::find_uniq` with `namespace_predicate_t`) — is some
non-deleted entry of the same database already named `nm`?  The source
errors whenever the search status is not `METADATA_ERR_NONE`, i.e. when at
least one match exists. -/
def nameCollision (md : MetadataMap) (nm : String) (db : DatabaseId) : Bool :=
  md.any (fun kv =>
    !kv.2.deleted && kv.2.value.name.value == nm && kv.2.value.database.value == db)

/-- Modelled from the spec: `calculate_server_usage` — each replica and
each director assignment increments that server's usage counter. -/
def bumpUsage (s : ServerId) : List (ServerId × Nat) → List (ServerId × Nat)
  | [] => [(s, 1)]
  | (x, n) :: xs => if x = s then (x, n + 1) :: xs else (x, n) :: bumpUsage s xs

/-- Accumulate one table configuration into the usage histogram. -/
def calculate_server_usage (config : TableConfig) (usage : List (ServerId × Nat)) :
    List (ServerId × Nat) :=
  config.shards.foldl
    (fun u sh => bumpUsage sh.director (sh.replicas.foldl (fun u2 r => bumpUsage r u2) u))
    usage

/-- One step of the usage scan: deleted entries are skipped, live entries
contribute their replication config. -/
def usageStep (usage : List (ServerId × Nat)) (kv : TableId × Deletable TableMeta) :
    List (ServerId × Nat) :=
  if kv.2.deleted then usage
  else calculate_server_usage kv.2.value.replicationInfo.value.config usage

/-- The usage histogram over all non-deleted tables of the metadata map
(the loop at the start of the generator branch of
`convert_table_config_and_name_from_datum`). -/
def serverUsageOf (md : MetadataMap) : List (ServerId × Nat) :=
  md.foldl usageStep []

/-- The external Default Config Generator (`table_generate_config` with
its fixed default parameters and empty scheme), keyed by the per-server
usage histogram. -/
abbrev ConfigGenerator := List (ServerId × Nat) → Except String TableConfig

/-- Modelled from the spec: `convert_name_from_datum` — a display name's
document form must be a string. -/
def convert_name_from_datum (what : String) (d : Datum) : Except String String :=
  match d with
  | .str s => .ok s
  | other => .error ("Expected a " ++ what ++ "; got " ++ other.print)

/-- Modelled from the spec: `convert_string_from_datum`. -/
def convert_string_from_datum (d : Datum) : Except String String :=
  match d with
  | .str s => .ok s
  | other => .error ("Expected a string, got " ++ other.print)

/-- The element loop of `convert_vector_from_datum` specialised to shard
documents: decode each element, short-circuiting on the first failure. -/
def decodeShardVector (env : AdminEnv) : List Datum → Except String (List ShardConfig)
  | [] => .ok []
  | d :: ds =>
    match convert_table_config_shard_from_datum env d with
    | .error e => .error e
    | .ok sh => (decodeShardVector env ds).map (fun rest => sh :: rest)

/-- What the decoded table-level record carries
(`convert_table_config_and_name_from_datum`'s out-parameters). -/
structure DecodedTable where
  tableName : String
  db : Datum
  id : TableId
  config : TableConfig
  primaryKey : String

/-- The `primary_key` section of `convert_table_config_and_name_from_datum`:
required when the table existed before or the field was supplied;
otherwise defaults to the literal `"id"`. -/
def decodeTablePrimaryKey (existedBefore : Bool) (fields : List (String × Datum)) :
    Except String String :=
  if existedBefore || (lookupField fields "primary_key").isSome then
    match lookupField fields "primary_key" with
    | none => .error (missingFieldMsg "primary_key")
    | some pkDatum =>
      match convert_string_from_datum pkDatum with
      | .error e => .error ("In `primary_key`: " ++ e)
      | .ok pk => .ok pk
  else .ok "id"

/-- The `shards` section of `convert_table_config_and_name_from_datum`:
required when the table existed before or the field was supplied
(decoding each shard and rejecting an empty list); otherwise the Default
Config Generator is called on the usage histogram of all non-deleted
tables. -/
def decodeTableShards (env : AdminEnv) (gen : ConfigGenerator) (existedBefore : Bool)
    (allMeta : MetadataMap) (fields : List (String × Datum)) :
    Except String TableConfig :=
  if existedBefore || (lookupField fields "shards").isSome then
    match lookupField fields "shards" with
    | none => .error (missingFieldMsg "shards")
    | some shardsDatum =>
      match shardsDatum with
      | .arr shardDatums =>
        match decodeShardVector env shardDatums with
        | .error e => .error ("In `shards`: " ++ e)
        | .ok shards =>
          if shards = [] then .error "In `shards`: You must specify at least one shard."
          else .ok { shards := shards }
      | other => .error ("In `shards`: Expected an array, got " ++ other.print)
  else
    match gen (serverUsageOf allMeta) with
    | .error e => .error ("When generating configuration for new table: " ++ e)
    | .ok cfg => .ok cfg

/-- The keys consumed by the table-level decode, for
`check_no_extra_keys`. -/
def tableUsedKeys (existedBefore : Bool) (fields : List (String × Datum)) : List String :=
  ["name", "db", "id"]
  ++ (if existedBefore || (lookupField fields "primary_key").isSome
      then ["primary_key"] else [])
  ++ (if existedBefore || (lookupField fields "shards").isSome
      then ["shards"] else [])

/-- `convert_table_config_and_name_from_datum`: decode a table-level
document into name, db reference (kept as a raw datum), id, config and
primary key. -/
def convert_table_config_and_name_from_datum (env : AdminEnv) (gen : ConfigGenerator)
    (existedBefore : Bool) (allMeta : MetadataMap) (datum : Datum) :
    Except String DecodedTable :=
  match datum with
  | .obj fields =>
    match lookupField fields "name" with
    | none => .error (missingFieldMsg "name")
    | some nameDatum =>
      match convert_name_from_datum "table name" nameDatum with
      | .error e => .error ("In `name`: " ++ e)
      | .ok tableName =>
        match lookupField fields "db" with
        | none => .error (missingFieldMsg "db")
        | some dbDatum =>
          match lookupField fields "id" with
          | none => .error (missingFieldMsg "id")
          | some idDatum =>
            match env.uuidFromDatum idDatum with
            | .error e => .error ("In `id`: " ++ e)
            | .ok tid =>
              match decodeTablePrimaryKey existedBefore fields with
              | .error e => .error e
              | .ok pk =>
                match decodeTableShards env gen existedBefore allMeta fields with
                | .error e => .error e
                | .ok cfg =>
                  if checkNoExtraKeys fields (tableUsedKeys existedBefore fields) then
                    .ok { tableName := tableName, db := dbDatum, id := tid,
                          config := cfg, primaryKey := pk }
                  else .error "Unexpected key(s)."
  | other => .error ("Expected an object, got " ++ other.print)

/-- `convert_table_config_to_datum`. -/
def convert_table_config_to_datum (env : AdminEnv) (config : TableConfig) : Datum :=
  .obj [("shards",
    .arr (config.shards.map (convert_table_config_shard_to_datum env)))]

/-- `table_config_artificial_table_backend_t::format_row`: the table
config document extended with `name`, `db`, `id` and `primary_key`. -/
def format_row (env : AdminEnv) (tableId : TableId) (tableName : String)
    (db : Datum) (metadata : TableMeta) : Datum :=
  .obj [("shards",
          .arr (metadata.replicationInfo.value.config.shards.map
            (convert_table_config_shard_to_datum env))),
        ("name", .str tableName),
        ("db", db),
        ("id", env.uuidToDatum tableId),
        ("primary_key", .str metadata.primaryKey.value)]

/-- The outcome of one `write_row` call.  `defect` models a failed
`guarantee` (a fatal assertion, not a user error). -/
inductive WriteResult where
  | ok (rowOut : Option Datum)
  | userError (msg : String)
  | defect (msg : String)

/-- The prefix wrapped around decode failures in `write_row`. -/
def wrongFormatMsg : String :=
  "The change you're trying to make to `rethinkdb.table_config` has the wrong format. "

/-- The create-case name-collision message (`Table `%s.%s` already
exists.`). -/
def createCollisionMsg (dbName newName : String) : String :=
  "Table `" ++ dbName ++ "." ++ newName ++ "` already exists."

/-- The rename-case name-collision message. -/
def renameCollisionMsg (dbName oldName newName : String) : String :=
  "Cannot rename table `" ++ dbName ++ "." ++ oldName ++ "` to `"
  ++ dbName ++ "." ++ newName ++ "` because table `"
  ++ dbName ++ "." ++ newName ++ "` already exists."

/-- The update half of `write_row` (`existed_before == true`, non-empty
payload, `entry` the live metadata entry found for the table id).  Returns
the write result together with the shared map as left by the call: failing
paths return before the join and leave the shared map untouched. -/
def write_row_update (env : AdminEnv) (gen : ConfigGenerator) (shared : MetadataMap)
    (tableId : TableId) (pkeyWasAutogenerated : Bool) (newValue : Datum)
    (entry : Deletable TableMeta) : WriteResult × MetadataMap :=
  let md := shared
  match convert_table_config_and_name_from_datum env gen true md newValue with
  | .error e => (.userError (wrongFormatMsg ++ e), shared)
  | .ok dec =>
    if dec.id = tableId then
      if pkeyWasAutogenerated then (.defect "UUID collision happened", shared)
      else
        let dbId := entry.value.database.value
        if Datum.beq dec.db (env.getDbIdentifier dbId) = false then
          (.userError "It's illegal to change a table's `database` field.", shared)
        else if dec.primaryKey ≠ entry.value.primaryKey.value then
          (.userError "It's illegal to change a table's primary key.", shared)
        else
          match env.calculateSplitPoints tableId dec.config.shards.length
              entry.value.replicationInfo.value.shardScheme with
          | .error e => (.userError e, shared)
          | .ok newScheme =>
            let oldTableName := entry.value.name.value
            if dec.tableName ≠ oldTableName ∧ nameCollision md dec.tableName dbId = true then
              (.userError
                (renameCollisionMsg (env.getDbName dbId) oldTableName dec.tableName),
               shared)
            else
              let newEntry : Deletable TableMeta :=
                { entry with value :=
                  { entry.value with
                    name := entry.value.name.set dec.tableName,
                    replicationInfo := entry.value.replicationInfo.set
                      { config := dec.config, shardScheme := newScheme } } }
              let md2 := mapSet md tableId newEntry
              (.ok (some (format_row env tableId dec.tableName
                      (env.getDbIdentifier dbId) newEntry.value)),
               mapJoin shared md2)
    else (.defect "artificial_table_t should ensure that the primary key doesn't change.",
          shared)

/-- The fresh metadata entry built for a newly created table: all four
record fields versioned at their initial stamp, with the trivial
single-shard scheme. -/
def freshTableMeta (dec : DecodedTable) (dbId : DatabaseId) : TableMeta :=
  { name := ⟨0, dec.tableName⟩,
    database := ⟨0, dbId⟩,
    primaryKey := ⟨0, dec.primaryKey⟩,
    replicationInfo := ⟨0, { config := dec.config, shardScheme := oneShardScheme }⟩ }

/-- The create half of `write_row` (`existed_before == false`, non-empty
payload; `tombstone` records whether a deleted entry with the same id is
still present, which the source checks with `namespaces.count(table_id)`). -/
def write_row_insert (env : AdminEnv) (gen : ConfigGenerator) (shared : MetadataMap)
    (tableId : TableId) (pkeyWasAutogenerated : Bool) (newValue : Datum)
    (tombstone : Bool) : WriteResult × MetadataMap :=
  let md := shared
  match convert_table_config_and_name_from_datum env gen false md newValue with
  | .error e => (.userError (wrongFormatMsg ++ e), shared)
  | .ok dec =>
    if dec.id = tableId then
      if !pkeyWasAutogenerated then
        (.userError ("If you want to create a new table by inserting into "
          ++ "`rethinkdb.table_config`, you must use an auto-generated primary key."),
         shared)
      else if tombstone then (.defect "UUID collision happened", shared)
      else
        match env.resolveDbFromDatum dec.db with
        | .error e => (.userError e, shared)
        | .ok dbId =>
          if dec.config.shards.length ≠ 1 then
            (.userError "Newly created tables must start with exactly one shard", shared)
          else if nameCollision md dec.tableName dbId = true then
            (.userError (createCollisionMsg (env.getDbName dbId) dec.tableName), shared)
          else
            let newMeta : TableMeta := freshTableMeta dec dbId
            let md2 := mapSet md tableId ⟨newMeta, false⟩
            (.ok (some (format_row env tableId dec.tableName
                    (env.getDbIdentifier dbId) newMeta)),
             mapJoin shared md2)
    else (.defect "artificial_table_t should ensure that the primary key doesn't change.",
          shared)

/-- The body of `write_row` once the table id is fixed: dispatch on
payload presence and on `existed_before`. -/
def write_row_core (env : AdminEnv) (gen : ConfigGenerator) (shared : MetadataMap)
    (tableId : TableId) (pkeyWasAutogenerated : Bool) (newValueInout : Option Datum) :
    WriteResult × MetadataMap :=
  let md := shared
  match newValueInout with
  | some newValue =>
    match mapFind md tableId with
    | some entry =>
      if entry.deleted then
        write_row_insert env gen shared tableId pkeyWasAutogenerated newValue true
      else
        write_row_update env gen shared tableId pkeyWasAutogenerated newValue entry
    | none =>
      write_row_insert env gen shared tableId pkeyWasAutogenerated newValue false
  | none =>
    match mapFind md tableId with
    | some entry =>
      if entry.deleted then (.ok none, mapJoin shared md)
      else if pkeyWasAutogenerated then (.defect "UUID collision happened", shared)
      else (.ok none, mapJoin shared (mapSet md tableId { entry with deleted := true }))
    | none => (.ok none, mapJoin shared md)

/-- `table_config_artificial_table_backend_t::write_row`: parse the
requested primary key (an unparseable key refers to a nonexistent table
and is a defect when the key was auto-generated), then run the
reconciliation transaction. -/
def write_row (env : AdminEnv) (gen : ConfigGenerator) (shared : MetadataMap)
    (primaryKey : Datum) (pkeyWasAutogenerated : Bool) (newValueInout : Option Datum) :
    WriteResult × MetadataMap :=
  match env.uuidFromDatum primaryKey with
  | .error _ =>
    if pkeyWasAutogenerated then
      (.defect "auto-generated primary key should have been a valid UUID string.", shared)
    else write_row_core env gen shared nilUuid pkeyWasAutogenerated newValueInout
  | .ok tableId => write_row_core env gen shared tableId pkeyWasAutogenerated newValueInout

/-- The result of resolving every element of a `replicas` array in order,
ignoring the duplicate check: `some ids` when each element resolves.  Used
to state properties of the decoding loop. -/
def resolveAll (env : AdminEnv) : List Datum → Option (List ServerId)
  | [] => some []
  | d :: ds =>
    match env.resolveServerFromDatum d with
    | .ok s => (resolveAll env ds).map (fun rest => s :: rest)
    | .error _ => none

/-- A small concrete collaborator environment used to exercise the
engine: servers "a" ↦ 1, "b" ↦ 2, "c" ↦ 3 (and back), UUIDs as
non-negative numbers, databases "db7" ↦ 7. -/
def testEnv : AdminEnv where
  resolveServerFromDatum := fun d =>
    match d with
    | .str s =>
      if s = "a" then .ok 1
      else if s = "b" then .ok 2
      else if s = "c" then .ok 3
      else .error ("Server `" ++ s ++ "` does not exist.")
    | other => .error ("Server `" ++ other.print ++ "` does not exist.")
  resolveServerToDatum := fun s =>
    match s with
    | 1 => some (.str "a")
    | 2 => some (.str "b")
    | 3 => some (.str "c")
    | _ => none
  uuidFromDatum := fun d =>
    match d with
    | .num n => if 0 ≤ n then .ok n.toNat else .error "Expected a UUID; got a negative number"
    | other => .error ("Expected a UUID; got " ++ other.print)
  uuidToDatum := fun t => .num t
  getDbIdentifier := fun db => .str ("db" ++ toString db)
  getDbName := fun db => "db" ++ toString db
  resolveDbFromDatum := fun d =>
    match d with
    | .str "db7" => .ok 7
    | other => .error ("Database `" ++ other.print ++ "` does not exist.")
  calculateSplitPoints := fun _ newCount _ => .ok newCount

/-- A generator producing a fixed single-shard configuration, for
witnesses. -/
def testGen : ConfigGenerator := fun _ => .ok { shards := [{ replicas := [1], director := 1 }] }

/-- A well-formed shard document over `testEnv`. -/
def shardDocOK : Datum :=
  .obj [("replicas", .arr [.str "a", .str "b"]), ("director", .str "a")]

/-- A shard document listing the same server twice. -/
def shardDocDup : Datum :=
  .obj [("replicas", .arr [.str "a", .str "a"]), ("director", .str "a")]

/-- A shard document with an empty replica array. -/
def shardDocEmpty : Datum :=
  .obj [("replicas", .arr []), ("director", .null)]

/-- A shard document whose director is not one of the replicas. -/
def shardDocBadDir : Datum :=
  .obj [("replicas", .arr [.str "a", .str "b"]), ("director", .str "c")]

/-- Does a replica document entry resolve to a server id that still
resolves back to a document?  (The entries the encoder keeps.) -/
def resolvesBack (env : AdminEnv) (e : Datum) : Bool :=
  match env.resolveServerFromDatum e with
  | .ok i => (env.resolveServerToDatum i).isSome
  | .error _ => false

/-- A generator that always fails, for exercising the generator-error
path. -/
def failGen : ConfigGenerator := fun _ => .error "boom"

/-- Table-level document fields with no `primary_key` and no `shards`. -/
def tableFieldsNoPK : List (String × Datum) :=
  [("name", .str "users"), ("db", .str "db7"), ("id", .num 5)]

/-- Table-level document fields with a non-string `primary_key`. -/
def tableFieldsBadPK : List (String × Datum) :=
  [("name", .str "users"), ("db", .str "db7"), ("id", .num 5), ("primary_key", .num 7)]

/-- Table-level document fields with a `primary_key` but no `shards`. -/
def tableFieldsNoShards : List (String × Datum) :=
  [("name", .str "users"), ("db", .str "db7"), ("id", .num 5), ("primary_key", .str "k")]

/-- Build a metadata entry with all fields at their initial version
stamp. -/
def entryMeta (nm : String) (db : DatabaseId) (pk : String) (cfg : TableConfig)
    (scheme : Nat) : TableMeta :=
  { name := ⟨0, nm⟩, database := ⟨0, db⟩, primaryKey := ⟨0, pk⟩,
    replicationInfo := ⟨0, { config := cfg, shardScheme := scheme }⟩ }

/-- A small concrete metadata map: two live tables and one deleted
tombstone, all in database 7. -/
def testMeta : MetadataMap :=
  [(5, ⟨entryMeta "users" 7 "id" ⟨[⟨[1], 1⟩]⟩ 1, false⟩),
   (6, ⟨entryMeta "posts" 7 "id" ⟨[⟨[2], 2⟩]⟩ 1, false⟩),
   (8, ⟨entryMeta "olds" 7 "id" ⟨[⟨[3], 3⟩]⟩ 1, true⟩)]

/-- A single-replica shard document on server "c". -/
def shardDocC : Datum := .obj [("replicas", .arr [.str "c"]), ("director", .str "c")]

/-- An update payload for table 5 with the given name, database and
primary key, and one shard. -/
def updateDoc (nm db pk : String) : Datum :=
  .obj [("name", .str nm), ("db", .str db), ("id", .num 5), ("primary_key", .str pk),
        ("shards", .arr [shardDocOK])]

/-- A create payload for a fresh table 10 in database "db7". -/
def createDoc (nm : String) (shards : List Datum) : Datum :=
  .obj [("name", .str nm), ("db", .str "db7"), ("id", .num 10),
        ("shards", .arr shards)]

theorem setInsert_none_iff {s : ServerId} :
    ∀ {acc : List ServerId}, acc.Sorted (· < ·) → (setInsert s acc = none ↔ s ∈ acc) := by
  intro acc
  induction acc with
  | nil => intro _; simp [setInsert]
  | cons x xs ih =>
    intro h
    rw [List.sorted_cons] at h
    obtain ⟨hx, hxs⟩ := h
    by_cases h1 : s < x
    · simp only [setInsert, if_pos h1, List.mem_cons]
      constructor
      · intro hc; exact absurd hc (by simp)
      · rintro (rfl | hm)
        · exact absurd h1 (lt_irrefl _)
        · exact absurd h1 (not_lt.mpr (le_of_lt (hx _ hm)))
    · by_cases h2 : s = x
      · subst h2; simp [setInsert, h1]
      · simp only [setInsert, if_neg h1, if_neg h2, Option.map_eq_none', List.mem_cons]
        rw [ih hxs]
        simp [h2]

theorem setInsert_some {s : ServerId} :
    ∀ {acc acc' : List ServerId}, acc.Sorted (· < ·) → setInsert s acc = some acc' →
      acc'.Sorted (· < ·) ∧ ∀ x, (x ∈ acc' ↔ x = s ∨ x ∈ acc) := by
  intro acc
  induction acc with
  | nil =>
    intro acc' _ h
    simp only [setInsert, Option.some.injEq] at h
    subst h
    simp
  | cons y ys ih =>
    intro acc' h hins
    rw [List.sorted_cons] at h
    obtain ⟨hy, hys⟩ := h
    by_cases h1 : s < y
    · simp only [setInsert, if_pos h1, Option.some.injEq] at hins
      subst hins
      constructor
      · rw [List.sorted_cons]
        refine ⟨?_, by rw [List.sorted_cons]; exact ⟨hy, hys⟩⟩
        intro b hb
        rcases List.mem_cons.mp hb with rfl | hb
        · exact h1
        · exact lt_trans h1 (hy _ hb)
      · intro x; simp [List.mem_cons]
    · by_cases h2 : s = y
      · subst h2
        simp [setInsert] at hins
      · simp only [setInsert, if_neg h1, if_neg h2] at hins
        rcases Option.map_eq_some'.mp hins with ⟨ys', hys', rfl⟩
        obtain ⟨hsorted, hmem⟩ := ih hys hys'
        constructor
        · rw [List.sorted_cons]
          refine ⟨?_, hsorted⟩
          intro b hb
          rcases (hmem b).mp hb with rfl | hb
          · exact lt_of_le_of_ne (not_lt.mp h1) (Ne.symm h2)
          · exact hy _ hb
        · intro x
          simp only [List.mem_cons, hmem x]
          tauto

theorem decodeReplicas_ok_sorted (env : AdminEnv) :
    ∀ {elems : List Datum} {acc res : List ServerId}, acc.Sorted (· < ·) →
      decodeReplicas env elems acc = .ok res → res.Sorted (· < ·) := by
  intro elems
  induction elems with
  | nil =>
    intro acc res hs h
    simp only [decodeReplicas] at h
    cases h
    exact hs
  | cons d ds ih =>
    intro acc res hs h
    simp only [decodeReplicas] at h
    cases hr : env.resolveServerFromDatum d with
    | error e => simp only [hr] at h; exact Except.noConfusion h
    | ok s =>
      simp only [hr] at h
      cases hins : setInsert s acc with
      | none => simp only [hins] at h; exact Except.noConfusion h
      | some acc' =>
        simp only [hins] at h
        exact ih (setInsert_some hs hins).1 h

theorem resolveAll_length (env : AdminEnv) :
    ∀ {elems : List Datum} {ids : List ServerId},
      resolveAll env elems = some ids → ids.length = elems.length := by
  intro elems
  induction elems with
  | nil => intro ids h; simp only [resolveAll, Option.some.injEq] at h; subst h; rfl
  | cons d ds ih =>
    intro ids h
    simp only [resolveAll] at h
    cases hr : env.resolveServerFromDatum d with
    | error e => simp only [hr] at h; exact Option.noConfusion h
    | ok s =>
      simp only [hr] at h
      rcases Option.map_eq_some'.mp h with ⟨ids', hids', rfl⟩
      simp [ih hids']

theorem decodeReplicas_spec (env : AdminEnv) :
    ∀ {elems : List Datum} {acc : List ServerId} {ids : List ServerId},
      acc.Sorted (· < ·) → resolveAll env elems = some ids →
      ((ids.Nodup ∧ ∀ i ∈ ids, i ∉ acc) →
        ∃ res, decodeReplicas env elems acc = .ok res ∧ ∀ x, (x ∈ res ↔ x ∈ ids ∨ x ∈ acc)) ∧
      ((¬ ids.Nodup ∨ ∃ i ∈ ids, i ∈ acc) →
        decodeReplicas env elems acc =
          .error "In `replicas`: A server is listed more than once.") := by
  intro elems
  induction elems with
  | nil =>
    intro acc ids hs hres
    simp only [resolveAll, Option.some.injEq] at hres
    subst hres
    constructor
    · intro _
      exact ⟨acc, rfl, by simp⟩
    · rintro (hnd | ⟨i, hi, _⟩)
      · exact absurd List.nodup_nil hnd
      · cases hi
  | cons d ds ih =>
    intro acc ids hs hres
    simp only [resolveAll] at hres
    cases hr : env.resolveServerFromDatum d with
    | error e => simp only [hr] at hres; exact Option.noConfusion hres
    | ok s =>
      simp only [hr] at hres
      rcases Option.map_eq_some'.mp hres with ⟨ids', hids', rfl⟩
      constructor
      · rintro ⟨hnd, hdisj⟩
        have hsacc : s ∉ acc := hdisj s (by simp)
        cases hins : setInsert s acc with
        | none => exact absurd ((setInsert_none_iff hs).mp hins) hsacc
        | some acc' =>
          obtain ⟨hsorted', hmem'⟩ := setInsert_some hs hins
          rw [List.nodup_cons] at hnd
          obtain ⟨hsids', hnd'⟩ := hnd
          have hdisj' : ∀ i ∈ ids', i ∉ acc' := by
            intro i hi hmem
            rcases (hmem' i).mp hmem with rfl | hmem
            · exact hsids' hi
            · exact hdisj i (by simp [hi]) hmem
          obtain ⟨res, hres2, hcontent⟩ := ((ih hsorted' hids').1) ⟨hnd', hdisj'⟩
          refine ⟨res, ?_, ?_⟩
          · simp only [decodeReplicas, hr, hins]
            exact hres2
          · intro x
            rw [hcontent x]
            simp only [hmem' x, List.mem_cons]
            tauto
      · intro hbad
        by_cases hsacc : s ∈ acc
        · have : setInsert s acc = none := (setInsert_none_iff hs).mpr hsacc
          simp only [decodeReplicas, hr, this]
        · cases hins : setInsert s acc with
          | none => exact absurd ((setInsert_none_iff hs).mp hins) hsacc
          | some acc' =>
            obtain ⟨hsorted', hmem'⟩ := setInsert_some hs hins
            have hbad' : ¬ ids'.Nodup ∨ ∃ i ∈ ids', i ∈ acc' := by
              rcases hbad with hnd | ⟨i, hi, hiacc⟩
              · rw [List.nodup_cons] at hnd
                by_cases hsin : s ∈ ids'
                · exact Or.inr ⟨s, hsin, (hmem' s).mpr (Or.inl rfl)⟩
                · exact Or.inl (fun h => hnd ⟨hsin, h⟩)
              · rcases List.mem_cons.mp hi with rfl | hi
                · exact absurd hiacc hsacc
                · exact Or.inr ⟨i, hi, (hmem' i).mpr (Or.inr hiacc)⟩
            have := ((ih hsorted' hids').2) hbad'
            simp only [decodeReplicas, hr, hins]
            exact this

theorem Datum.isNull_iff {d : Datum} : d.isNull = true ↔ d = .null := by
  cases d <;> simp [Datum.isNull]

theorem shard_decode_ok_elim {env : AdminEnv} {d : Datum} {shard : ShardConfig}
    (h : convert_table_config_shard_from_datum env d = .ok shard) :
    ∃ fields elems directorDatum,
      d = .obj fields ∧
      lookupField fields "replicas" = some (.arr elems) ∧
      decodeReplicas env elems [] = .ok shard.replicas ∧
      shard.replicas ≠ [] ∧
      lookupField fields "director" = some directorDatum ∧
      checkNoExtraKeys fields ["replicas", "director"] = true ∧
      ((directorDatum = .null ∧ shard.director = nilUuid) ∨
       (directorDatum ≠ .null ∧
        env.resolveServerFromDatum directorDatum = .ok shard.director ∧
        shard.director ∈ shard.replicas)) := by
  cases d <;> simp only [convert_table_config_shard_from_datum] at h <;>
    try exact Except.noConfusion h
  case obj fields =>
  cases hl : lookupField fields "replicas" with
  | none => simp only [hl] at h; exact Except.noConfusion h
  | some replicasDatum =>
    simp only [hl] at h
    cases replicasDatum with
    | arr elems =>
      cases hdr : decodeReplicas env elems [] with
      | error e => simp only [hdr] at h; exact Except.noConfusion h
      | ok replicas =>
        simp only [hdr] at h
        by_cases hemp : replicas = []
        · rw [if_pos hemp] at h; exact Except.noConfusion h
        · rw [if_neg hemp] at h
          cases hld : lookupField fields "director" with
          | none => simp only [hld] at h; exact Except.noConfusion h
          | some directorDatum =>
            simp only [hld] at h
            by_cases hnull : directorDatum.isNull = true
            · rw [if_pos hnull] at h
              by_cases hkeys : checkNoExtraKeys fields ["replicas", "director"] = true
              · rw [if_pos hkeys] at h
                injection h with h2
                subst h2
                exact ⟨fields, elems, directorDatum, rfl, hl, hdr, hemp, hld, hkeys,
                  Or.inl ⟨Datum.isNull_iff.mp hnull, rfl⟩⟩
              · rw [if_neg hkeys] at h; exact Except.noConfusion h
            · rw [if_neg hnull] at h
              cases hres : env.resolveServerFromDatum directorDatum with
              | error e => simp only [hres] at h; exact Except.noConfusion h
              | ok director =>
                simp only [hres] at h
                by_cases hmem : director ∈ replicas
                · rw [if_pos hmem] at h
                  by_cases hkeys : checkNoExtraKeys fields ["replicas", "director"] = true
                  · rw [if_pos hkeys] at h
                    injection h with h2
                    subst h2
                    exact ⟨fields, elems, directorDatum, rfl, hl, hdr, hemp, hld, hkeys,
                      Or.inr ⟨fun hc => hnull (Datum.isNull_iff.mpr hc), hres, hmem⟩⟩
                  · rw [if_neg hkeys] at h; exact Except.noConfusion h
                · rw [if_neg hmem] at h; exact Except.noConfusion h
    | null => simp at h
    | bool b => simp at h
    | num n => simp at h
    | str s => simp at h
    | obj flds => simp at h

/-- C1: every shard document accepted by
`convert_table_config_shard_from_datum` yields a `ShardConfig` with a
non-empty, duplicate-free replica set whose director is the nil sentinel
or a member of the replicas; documents with a duplicate replica, an empty
replica array, or a resolvable non-null director outside the replica set
are rejected with the messages "In `replicas`: A server is listed more
than once.", "You must specify at least one replica for each shard.", and
"The director must be one of the replicas." respectively. -/
theorem shard_decoder_invariants_and_rejections (env : AdminEnv) (d : Datum) :
    (∀ shard, convert_table_config_shard_from_datum env d = .ok shard →
      shard.replicas ≠ [] ∧ shard.replicas.Nodup ∧
      (shard.director = nilUuid ∨ shard.director ∈ shard.replicas)) ∧
    (∀ fields elems ids, d = .obj fields →
      lookupField fields "replicas" = some (.arr elems) →
      resolveAll env elems = some ids → ¬ ids.Nodup →
      convert_table_config_shard_from_datum env d =
        .error "In `replicas`: A server is listed more than once.") ∧
    (∀ fields, d = .obj fields →
      lookupField fields "replicas" = some (.arr []) →
      convert_table_config_shard_from_datum env d =
        .error "You must specify at least one replica for each shard.") ∧
    (∀ fields elems ids directorDatum s, d = .obj fields →
      lookupField fields "replicas" = some (.arr elems) →
      resolveAll env elems = some ids → ids.Nodup → elems ≠ [] →
      lookupField fields "director" = some directorDatum →
      directorDatum.isNull = false →
      env.resolveServerFromDatum directorDatum = .ok s → s ∉ ids →
      convert_table_config_shard_from_datum env d =
        .error "The director must be one of the replicas.") := by
  refine ⟨?_, ?_, ?_, ?_⟩
  · intro shard h
    obtain ⟨fields, elems, directorDatum, rfl, hl, hdr, hemp, hld, hkeys, hdir⟩ :=
      shard_decode_ok_elim h
    have hsorted := decodeReplicas_ok_sorted env List.sorted_nil hdr
    refine ⟨hemp, hsorted.nodup, ?_⟩
    rcases hdir with ⟨_, hnil⟩ | ⟨_, _, hmem⟩
    · exact Or.inl hnil
    · exact Or.inr hmem
  · rintro fields elems ids rfl hl hres hnd
    have herr := (decodeReplicas_spec env List.sorted_nil hres).2 (Or.inl hnd)
    simp [convert_table_config_shard_from_datum, hl, herr]
  · rintro fields rfl hl
    simp [convert_table_config_shard_from_datum, hl, decodeReplicas]
  · rintro fields elems ids directorDatum s rfl hl hres hnd hne hld hdnull hdres hsids
    obtain ⟨res, hok, hcontent⟩ :=
      (decodeReplicas_spec env List.sorted_nil hres).1 ⟨hnd, by simp⟩
    have hidsne : ids ≠ [] := by
      intro hc
      subst hc
      exact hne (List.eq_nil_of_length_eq_zero (resolveAll_length env hres).symm)
    obtain ⟨i, hi⟩ := List.exists_mem_of_ne_nil ids hidsne
    have hresne : res ≠ [] :=
      List.ne_nil_of_mem ((hcontent i).mpr (Or.inl hi))
    have hsnotres : s ∉ res := by
      intro hc
      rcases (hcontent s).mp hc with hs | hs
      · exact hsids hs
      · cases hs
    simp [convert_table_config_shard_from_datum, hl, hok, hresne, hld, hdnull, hdres,
      hsnotres]

/-- Witness for the shard-validator claim: each conjunct applied at a
concrete document over `testEnv`. -/
theorem shard_decoder_invariants_and_rejections_witness :
    (⟨[1, 2], 1⟩ : ShardConfig).replicas ≠ [] ∧
    convert_table_config_shard_from_datum testEnv shardDocDup =
      .error "In `replicas`: A server is listed more than once." ∧
    convert_table_config_shard_from_datum testEnv shardDocEmpty =
      .error "You must specify at least one replica for each shard." ∧
    convert_table_config_shard_from_datum testEnv shardDocBadDir =
      .error "The director must be one of the replicas." := by
  refine ⟨((shard_decoder_invariants_and_rejections testEnv shardDocOK).1 ⟨[1, 2], 1⟩ rfl).1,
    ?_, ?_, ?_⟩
  · exact (shard_decoder_invariants_and_rejections testEnv shardDocDup).2.1
      [("replicas", .arr [.str "a", .str "a"]), ("director", .str "a")]
      [.str "a", .str "a"] [1, 1] rfl rfl rfl (by decide)
  · exact (shard_decoder_invariants_and_rejections testEnv shardDocEmpty).2.2.1
      [("replicas", .arr []), ("director", .null)] rfl rfl
  · exact (shard_decoder_invariants_and_rejections testEnv shardDocBadDir).2.2.2
      [("replicas", .arr [.str "a", .str "b"]), ("director", .str "c")]
      [.str "a", .str "b"] [1, 2] (.str "c") 3 rfl rfl rfl (by decide) (by simp)
      rfl rfl rfl (by decide)

/-- `testEnv`'s resolvers are mutually consistent: a document that
resolves to a server id resolves back to the same document. -/
theorem testEnv_consistent : ∀ e i, testEnv.resolveServerFromDatum e = .ok i →
    ∀ e', testEnv.resolveServerToDatum i = some e' → e' = e := by
  intro e i he e' ht
  cases e with
  | str s =>
    simp only [testEnv] at he
    by_cases h1 : s = "a"
    · rw [if_pos h1] at he
      injection he with he
      subst he
      simp only [testEnv] at ht
      injection ht with ht
      rw [← ht, h1]
    · rw [if_neg h1] at he
      by_cases h2 : s = "b"
      · rw [if_pos h2] at he
        injection he with he
        subst he
        simp only [testEnv] at ht
        injection ht with ht
        rw [← ht, h2]
      · rw [if_neg h2] at he
        by_cases h3 : s = "c"
        · rw [if_pos h3] at he
          injection he with he
          subst he
          simp only [testEnv] at ht
          injection ht with ht
          rw [← ht, h3]
        · rw [if_neg h3] at he
          exact Except.noConfusion he
  | null => exact Except.noConfusion he
  | bool b => exact Except.noConfusion he
  | num n => exact Except.noConfusion he
  | arr xs => exact Except.noConfusion he
  | obj flds => exact Except.noConfusion he

theorem setInsert_perm {s : ServerId} :
    ∀ {acc acc' : List ServerId}, setInsert s acc = some acc' → acc'.Perm (s :: acc) := by
  intro acc
  induction acc with
  | nil =>
    intro acc' h
    simp only [setInsert, Option.some.injEq] at h
    subst h
    exact List.Perm.refl _
  | cons y ys ih =>
    intro acc' h
    by_cases h1 : s < y
    · simp only [setInsert, if_pos h1, Option.some.injEq] at h
      subst h
      exact List.Perm.refl _
    · by_cases h2 : s = y
      · subst h2; simp [setInsert] at h
      · simp only [setInsert, if_neg h1, if_neg h2] at h
        rcases Option.map_eq_some'.mp h with ⟨ys', hys', rfl⟩
        exact (List.Perm.cons y (ih hys')).trans (List.Perm.swap s y ys)

theorem decodeReplicas_ok_perm (env : AdminEnv) :
    ∀ {elems : List Datum} {acc res : List ServerId},
      decodeReplicas env elems acc = .ok res →
      ∃ ids, resolveAll env elems = some ids ∧ res.Perm (ids ++ acc) := by
  intro elems
  induction elems with
  | nil =>
    intro acc res h
    simp only [decodeReplicas] at h
    cases h
    exact ⟨[], rfl, List.Perm.refl _⟩
  | cons d ds ih =>
    intro acc res h
    simp only [decodeReplicas] at h
    cases hr : env.resolveServerFromDatum d with
    | error e => simp only [hr] at h; exact Except.noConfusion h
    | ok s =>
      simp only [hr] at h
      cases hins : setInsert s acc with
      | none => simp only [hins] at h; exact Except.noConfusion h
      | some acc' =>
        simp only [hins] at h
        obtain ⟨ids', hids', hperm⟩ := ih h
        refine ⟨s :: ids', by simp [resolveAll, hr, hids'], ?_⟩
        have h1 : res.Perm (ids' ++ (s :: acc)) :=
          hperm.trans (List.Perm.append_left ids' (setInsert_perm hins))
        exact h1.trans List.perm_middle

theorem resolveAll_filterMap (env : AdminEnv)
    (hcons : ∀ e i, env.resolveServerFromDatum e = .ok i →
      ∀ e', env.resolveServerToDatum i = some e' → e' = e) :
    ∀ {elems : List Datum} {ids : List ServerId}, resolveAll env elems = some ids →
      ids.filterMap env.resolveServerToDatum = elems.filter (resolvesBack env) := by
  intro elems
  induction elems with
  | nil =>
    intro ids h
    simp only [resolveAll, Option.some.injEq] at h
    subst h
    rfl
  | cons d ds ih =>
    intro ids h
    simp only [resolveAll] at h
    cases hr : env.resolveServerFromDatum d with
    | error e => simp only [hr] at h; exact Option.noConfusion h
    | ok s =>
      simp only [hr] at h
      rcases Option.map_eq_some'.mp h with ⟨ids', hids', rfl⟩
      cases ht : env.resolveServerToDatum s with
      | none =>
        have hpb : resolvesBack env d = false := by simp [resolvesBack, hr, ht]
        simp [List.filterMap_cons, ht, List.filter_cons, hpb, ih hids']
      | some e' =>
        have he' : e' = d := hcons d s hr e' ht
        subst he'
        have hpb : resolvesBack env e' = true := by simp [resolvesBack, hr, ht]
        simp [List.filterMap_cons, ht, List.filter_cons, hpb, ih hids']

/-- C6: the shard encoder is total — for every `ShardConfig` it produces
an object whose `replicas` array keeps exactly the replicas whose
identifier still resolves (so it may be shorter than the internal set),
and whose `director` is the resolved document or an explicit `null` when
the director's identifier fails to resolve. -/
theorem shard_encoder_total (env : AdminEnv) (shard : ShardConfig) :
    convert_table_config_shard_to_datum env shard =
      .obj [("replicas", .arr (shard.replicas.filterMap env.resolveServerToDatum)),
            ("director", (env.resolveServerToDatum shard.director).getD .null)] ∧
    (shard.replicas.filterMap env.resolveServerToDatum).length ≤ shard.replicas.length ∧
    (∀ s ∈ shard.replicas, ∀ e, env.resolveServerToDatum s = some e →
      e ∈ shard.replicas.filterMap env.resolveServerToDatum) ∧
    (∀ s ∈ shard.replicas, env.resolveServerToDatum s = none →
      ∀ e, e ∈ shard.replicas.filterMap env.resolveServerToDatum →
        ∃ s' ∈ shard.replicas, s' ≠ s ∧ env.resolveServerToDatum s' = some e) ∧
    (env.resolveServerToDatum shard.director = none →
      convert_table_config_shard_to_datum env shard =
        .obj [("replicas", .arr (shard.replicas.filterMap env.resolveServerToDatum)),
              ("director", .null)]) := by
  refine ⟨?_, List.length_filterMap_le _ _, ?_, ?_, ?_⟩
  · cases ht : env.resolveServerToDatum shard.director <;>
      simp [convert_table_config_shard_to_datum, ht]
  · intro s hs e he
    exact List.mem_filterMap.mpr ⟨s, hs, he⟩
  · intro s hs hnone e he
    obtain ⟨s', hs', he'⟩ := List.mem_filterMap.mp he
    refine ⟨s', hs', ?_, he'⟩
    intro hc
    subst hc
    rw [hnone] at he'
    exact Option.noConfusion he'
  · intro hnone
    simp [convert_table_config_shard_to_datum, hnone]

/-- Witness for the encoder-totality claim: encoding a shard whose second
replica (and director) no longer resolves drops that replica and shows a
null director. -/
theorem shard_encoder_total_witness :
    convert_table_config_shard_to_datum testEnv ⟨[1, 9], 9⟩ =
      .obj [("replicas", .arr [.str "a"]), ("director", .null)] := by
  have h := (shard_encoder_total testEnv ⟨[1, 9], 9⟩).2.2.2.2 rfl
  exact h

/-- C2: round-trip — for a document `d` that the shard decoder accepts
(over resolvers that are mutually consistent and do not resolve the nil
sentinel), re-encoding the decoded `ShardConfig` yields an object whose
`replicas` array is a permutation of exactly those replica entries of `d`
whose identifier still resolves, and whose `director` is `d`'s director
(re-encoded as `null` when `d`'s director was `null`, or when the
director's identifier no longer resolves). -/
theorem shard_roundtrip (env : AdminEnv) (fields : List (String × Datum))
    (elems : List Datum) (directorDatum : Datum) (shard : ShardConfig)
    (hcons : ∀ e i, env.resolveServerFromDatum e = .ok i →
      ∀ e', env.resolveServerToDatum i = some e' → e' = e)
    (hnil : env.resolveServerToDatum nilUuid = none)
    (hl : lookupField fields "replicas" = some (.arr elems))
    (hld : lookupField fields "director" = some directorDatum)
    (h : convert_table_config_shard_from_datum env (.obj fields) = .ok shard) :
    convert_table_config_shard_to_datum env shard =
      .obj [("replicas", .arr (shard.replicas.filterMap env.resolveServerToDatum)),
            ("director", (env.resolveServerToDatum shard.director).getD .null)] ∧
    (shard.replicas.filterMap env.resolveServerToDatum).Perm
      (elems.filter (resolvesBack env)) ∧
    (directorDatum = .null →
      (env.resolveServerToDatum shard.director).getD .null = .null) ∧
    (directorDatum ≠ .null →
      (env.resolveServerToDatum shard.director).getD .null = directorDatum ∨
      (env.resolveServerToDatum shard.director = none ∧
       (env.resolveServerToDatum shard.director).getD .null = .null)) := by
  obtain ⟨fields', elems', directorDatum', heq, hl', hdr, hemp, hld', hkeys, hdir⟩ :=
    shard_decode_ok_elim h
  injection heq with heq
  subst heq
  rw [hl'] at hl
  injection hl with hl
  injection hl with hl
  subst hl
  rw [hld'] at hld
  injection hld with hld
  subst hld
  refine ⟨?_, ?_, ?_, ?_⟩
  · cases ht : env.resolveServerToDatum shard.director <;>
      simp [convert_table_config_shard_to_datum, ht]
  · obtain ⟨ids, hres, hperm⟩ := decodeReplicas_ok_perm env hdr
    rw [List.append_nil] at hperm
    have h1 : (shard.replicas.filterMap env.resolveServerToDatum).Perm
        (ids.filterMap env.resolveServerToDatum) :=
      hperm.filterMap _
    rw [resolveAll_filterMap env hcons hres] at h1
    exact h1
  · intro hdnull
    rcases hdir with ⟨_, hnilval⟩ | ⟨hne, _, _⟩
    · rw [hnilval, hnil]; rfl
    · exact absurd hdnull hne
  · intro hdnotnull
    rcases hdir with ⟨hdnull, _⟩ | ⟨_, hres, _⟩
    · exact absurd hdnull hdnotnull
    · cases ht : env.resolveServerToDatum shard.director with
      | some e' =>
        left
        rw [hcons _ _ hres e' ht]
        rfl
      | none => exact Or.inr ⟨rfl, rfl⟩

/-- Witness for the round-trip claim at a concrete accepted document. -/
theorem shard_roundtrip_witness :
    convert_table_config_shard_to_datum testEnv ⟨[1, 2], 1⟩ =
      .obj [("replicas",
              .arr ([1, 2].filterMap testEnv.resolveServerToDatum)),
            ("director", (testEnv.resolveServerToDatum 1).getD .null)] ∧
    ((([1, 2] : List ServerId).filterMap testEnv.resolveServerToDatum).Perm
      ([.str "a", .str "b"].filter (resolvesBack testEnv))) ∧
    ((Datum.str "a") = .null →
      (testEnv.resolveServerToDatum 1).getD .null = .null) ∧
    ((Datum.str "a") ≠ .null →
      (testEnv.resolveServerToDatum 1).getD .null = .str "a" ∨
      (testEnv.resolveServerToDatum 1 = none ∧
       (testEnv.resolveServerToDatum 1).getD .null = .null)) :=
  shard_roundtrip testEnv
    [("replicas", .arr [.str "a", .str "b"]), ("director", .str "a")]
    [.str "a", .str "b"] (.str "a") ⟨[1, 2], 1⟩
    testEnv_consistent rfl rfl rfl rfl

theorem table_decode_ok_elim {env : AdminEnv} {gen : ConfigGenerator} {eb : Bool}
    {allMeta : MetadataMap} {fields : List (String × Datum)} {dec : DecodedTable}
    (h : convert_table_config_and_name_from_datum env gen eb allMeta (.obj fields) =
      .ok dec) :
    ∃ nameDatum idDatum,
      lookupField fields "name" = some nameDatum ∧
      convert_name_from_datum "table name" nameDatum = .ok dec.tableName ∧
      lookupField fields "db" = some dec.db ∧
      lookupField fields "id" = some idDatum ∧
      env.uuidFromDatum idDatum = .ok dec.id ∧
      decodeTablePrimaryKey eb fields = .ok dec.primaryKey ∧
      decodeTableShards env gen eb allMeta fields = .ok dec.config ∧
      checkNoExtraKeys fields (tableUsedKeys eb fields) = true := by
  simp only [convert_table_config_and_name_from_datum] at h
  cases hn : lookupField fields "name" with
  | none => simp only [hn] at h; exact Except.noConfusion h
  | some nameDatum =>
    simp only [hn] at h
    cases hcn : convert_name_from_datum "table name" nameDatum with
    | error e => simp only [hcn] at h; exact Except.noConfusion h
    | ok nm =>
      simp only [hcn] at h
      cases hdb : lookupField fields "db" with
      | none => simp only [hdb] at h; exact Except.noConfusion h
      | some dbDatum =>
        simp only [hdb] at h
        cases hid : lookupField fields "id" with
        | none => simp only [hid] at h; exact Except.noConfusion h
        | some idDatum =>
          simp only [hid] at h
          cases huid : env.uuidFromDatum idDatum with
          | error e => simp only [huid] at h; exact Except.noConfusion h
          | ok tid =>
            simp only [huid] at h
            cases hpk : decodeTablePrimaryKey eb fields with
            | error e => simp only [hpk] at h; exact Except.noConfusion h
            | ok pk =>
              simp only [hpk] at h
              cases hsh : decodeTableShards env gen eb allMeta fields with
              | error e => simp only [hsh] at h; exact Except.noConfusion h
              | ok cfg =>
                simp only [hsh] at h
                by_cases hkeys : checkNoExtraKeys fields (tableUsedKeys eb fields) = true
                · rw [if_pos hkeys] at h
                  injection h with h2
                  subst h2
                  exact ⟨nameDatum, idDatum, rfl, hcn, rfl, rfl, huid, rfl, rfl, hkeys⟩
                · rw [if_neg hkeys] at h
                  exact Except.noConfusion h

/-- C8: in the table-level decode, when the table did not exist before
and the document has no `primary_key` field the decoded primary key
defaults to the literal `"id"`; when the table existed before the field
is required (missing-field error), and whenever the field is supplied it
must decode as a string. -/
theorem table_decode_primary_key_default (env : AdminEnv) (gen : ConfigGenerator)
    (allMeta : MetadataMap) (fields : List (String × Datum)) :
    (∀ dec, lookupField fields "primary_key" = none →
      convert_table_config_and_name_from_datum env gen false allMeta (.obj fields) =
        .ok dec →
      dec.primaryKey = "id") ∧
    (∀ nameDatum nm dbDatum idDatum tid,
      lookupField fields "name" = some nameDatum →
      convert_name_from_datum "table name" nameDatum = .ok nm →
      lookupField fields "db" = some dbDatum →
      lookupField fields "id" = some idDatum →
      env.uuidFromDatum idDatum = .ok tid →
      lookupField fields "primary_key" = none →
      convert_table_config_and_name_from_datum env gen true allMeta (.obj fields) =
        .error (missingFieldMsg "primary_key")) ∧
    (∀ eb nameDatum nm dbDatum idDatum tid pkDatum e,
      lookupField fields "name" = some nameDatum →
      convert_name_from_datum "table name" nameDatum = .ok nm →
      lookupField fields "db" = some dbDatum →
      lookupField fields "id" = some idDatum →
      env.uuidFromDatum idDatum = .ok tid →
      lookupField fields "primary_key" = some pkDatum →
      convert_string_from_datum pkDatum = .error e →
      convert_table_config_and_name_from_datum env gen eb allMeta (.obj fields) =
        .error ("In `primary_key`: " ++ e)) := by
  refine ⟨?_, ?_, ?_⟩
  · intro dec hpk h
    obtain ⟨nd, idd, _, _, _, _, _, hpk6, _, _⟩ := table_decode_ok_elim h
    simp only [decodeTablePrimaryKey, hpk, Option.isSome_none, Bool.or_false,
      Bool.false_eq_true, if_false] at hpk6
    injection hpk6 with hpk6
    exact hpk6.symm
  · intro nameDatum nm dbDatum idDatum tid hn hcn hdb hid huid hpk
    simp [convert_table_config_and_name_from_datum, hn, hcn, hdb, hid, huid,
      decodeTablePrimaryKey, hpk]
  · intro eb nameDatum nm dbDatum idDatum tid pkDatum e hn hcn hdb hid huid hpk hcs
    simp [convert_table_config_and_name_from_datum, hn, hcn, hdb, hid, huid,
      decodeTablePrimaryKey, hpk, hcs]

/-- Witness for the primary-key-defaulting claim, at concrete documents
over `testEnv`. -/
theorem table_decode_primary_key_default_witness :
    (DecodedTable.primaryKey ⟨"users", .str "db7", 5, ⟨[⟨[1], 1⟩]⟩, "id"⟩ = "id") ∧
    convert_table_config_and_name_from_datum testEnv testGen true [] (.obj tableFieldsNoPK) =
      .error (missingFieldMsg "primary_key") ∧
    convert_table_config_and_name_from_datum testEnv testGen false [] (.obj tableFieldsBadPK) =
      .error ("In `primary_key`: Expected a string, got 7") := by
  refine ⟨?_, ?_, ?_⟩
  · exact (table_decode_primary_key_default testEnv testGen [] tableFieldsNoPK).1
      ⟨"users", .str "db7", 5, ⟨[⟨[1], 1⟩]⟩, "id"⟩ rfl rfl
  · exact (table_decode_primary_key_default testEnv testGen [] tableFieldsNoPK).2.1
      (.str "users") "users" (.str "db7") (.num 5) 5 rfl rfl rfl rfl rfl rfl
  · exact (table_decode_primary_key_default testEnv testGen [] tableFieldsBadPK).2.2
      false (.str "users") "users" (.str "db7") (.num 5) 5 (.num 7)
      "Expected a string, got 7" rfl rfl rfl rfl rfl rfl rfl

theorem usage_foldl_filter :
    ∀ (md : MetadataMap) (init : List (ServerId × Nat)),
      md.foldl usageStep init =
        (md.filter (fun kv => !kv.2.deleted)).foldl usageStep init := by
  intro md
  induction md with
  | nil => intro init; rfl
  | cons kv rest ih =>
    intro init
    by_cases hd : kv.2.deleted
    · simp [List.foldl_cons, List.filter_cons, usageStep, hd, ih]
    · simp [List.foldl_cons, List.filter_cons, usageStep, hd, ih]

/-- C10: a table-level decode for an existing table requires the `shards`
field (missing-field error when absent), and the Default Config Generator
is never consulted for an existing table — its result cannot influence
the decode — while for a new table with no `shards` field the generator
is invoked on the usage histogram, which counts only non-deleted
tables. -/
theorem table_decode_shards_required (env : AdminEnv) (gen : ConfigGenerator)
    (allMeta : MetadataMap) (fields : List (String × Datum)) :
    (∀ nameDatum nm dbDatum idDatum tid pk,
      lookupField fields "name" = some nameDatum →
      convert_name_from_datum "table name" nameDatum = .ok nm →
      lookupField fields "db" = some dbDatum →
      lookupField fields "id" = some idDatum →
      env.uuidFromDatum idDatum = .ok tid →
      decodeTablePrimaryKey true fields = .ok pk →
      lookupField fields "shards" = none →
      convert_table_config_and_name_from_datum env gen true allMeta (.obj fields) =
        .error (missingFieldMsg "shards")) ∧
    (∀ (gen' : ConfigGenerator) (d : Datum),
      convert_table_config_and_name_from_datum env gen true allMeta d =
        convert_table_config_and_name_from_datum env gen' true allMeta d) ∧
    (∀ nameDatum nm dbDatum idDatum tid pk e,
      lookupField fields "name" = some nameDatum →
      convert_name_from_datum "table name" nameDatum = .ok nm →
      lookupField fields "db" = some dbDatum →
      lookupField fields "id" = some idDatum →
      env.uuidFromDatum idDatum = .ok tid →
      decodeTablePrimaryKey false fields = .ok pk →
      lookupField fields "shards" = none →
      gen (serverUsageOf allMeta) = .error e →
      convert_table_config_and_name_from_datum env gen false allMeta (.obj fields) =
        .error ("When generating configuration for new table: " ++ e)) ∧
    serverUsageOf allMeta = serverUsageOf (allMeta.filter (fun kv => !kv.2.deleted)) := by
  refine ⟨?_, ?_, ?_, ?_⟩
  · intro nameDatum nm dbDatum idDatum tid pk hn hcn hdb hid huid hpk hsh
    simp [convert_table_config_and_name_from_datum, hn, hcn, hdb, hid, huid, hpk,
      decodeTableShards, hsh]
  · intro gen' d
    cases d <;> rfl
  · intro nameDatum nm dbDatum idDatum tid pk e hn hcn hdb hid huid hpk hsh hgen
    simp [convert_table_config_and_name_from_datum, hn, hcn, hdb, hid, huid, hpk,
      decodeTableShards, hsh, hgen]
  · have h := usage_foldl_filter allMeta []
    simpa [serverUsageOf] using h

/-- Witness for the shards-required claim, at concrete documents over
`testEnv` and the concrete map `testMeta`. -/
theorem table_decode_shards_required_witness :
    convert_table_config_and_name_from_datum testEnv testGen true [] (.obj tableFieldsNoShards) =
      .error (missingFieldMsg "shards") ∧
    convert_table_config_and_name_from_datum testEnv testGen true [] (.obj tableFieldsNoShards) =
      convert_table_config_and_name_from_datum testEnv failGen true [] (.obj tableFieldsNoShards) ∧
    convert_table_config_and_name_from_datum testEnv failGen false [] (.obj tableFieldsNoPK) =
      .error ("When generating configuration for new table: " ++ "boom") ∧
    serverUsageOf testMeta = serverUsageOf (testMeta.filter (fun kv => !kv.2.deleted)) := by
  refine ⟨?_, ?_, ?_, ?_⟩
  · exact (table_decode_shards_required testEnv testGen [] tableFieldsNoShards).1
      (.str "users") "users" (.str "db7") (.num 5) 5 "k" rfl rfl rfl rfl rfl rfl rfl
  · exact (table_decode_shards_required testEnv testGen [] tableFieldsNoShards).2.1
      failGen (.obj tableFieldsNoShards)
  · exact (table_decode_shards_required testEnv failGen [] tableFieldsNoPK).2.2.1
      (.str "users") "users" (.str "db7") (.num 5) 5 "id" "boom"
      rfl rfl rfl rfl rfl rfl rfl rfl
  · exact (table_decode_shards_required testEnv testGen testMeta []).2.2.2

theorem versioned_join_self {α : Type} (v : Versioned α) : v.join v = v := by
  simp [Versioned.join]

theorem tableMeta_join_self (m : TableMeta) : m.join m = m := by
  cases m
  simp [TableMeta.join, versioned_join_self]

theorem deletable_join_self (d : Deletable TableMeta) : d.join d = d := by
  cases d
  simp [Deletable.join, tableMeta_join_self]

theorem mapFind_mapSet_self (m : MetadataMap) (k : TableId) (v : Deletable TableMeta) :
    mapFind (mapSet m k v) k = some v := by
  induction m with
  | nil => simp [mapSet, mapFind]
  | cons x rest ih =>
    obtain ⟨k', v'⟩ := x
    by_cases hk : k' = k
    · simp [mapSet, mapFind, hk]
    · simp [mapSet, mapFind, hk, ih]

theorem mapFind_mapSet_ne (m : MetadataMap) {k k2 : TableId} (v : Deletable TableMeta)
    (h : k2 ≠ k) : mapFind (mapSet m k v) k2 = mapFind m k2 := by
  have hne : k ≠ k2 := fun hc => h hc.symm
  induction m with
  | nil => simp [mapSet, mapFind, hne]
  | cons x rest ih =>
    obtain ⟨k', v'⟩ := x
    by_cases hk : k' = k
    · subst hk
      simp [mapSet, mapFind, hne]
    · simp [mapSet, mapFind, hk, ih]

theorem mapFind_append (l1 l2 : MetadataMap) (k : TableId) :
    mapFind (l1 ++ l2) k =
      match mapFind l1 k with
      | some v => some v
      | none => mapFind l2 k := by
  induction l1 with
  | nil => simp [mapFind]
  | cons x rest ih =>
    obtain ⟨k', v'⟩ := x
    by_cases hk : k' = k
    · simp [mapFind, hk]
    · simp [mapFind, hk, ih]

theorem mapFind_map_joinFn (a b : MetadataMap) (k : TableId) :
    mapFind (a.map (fun kv =>
        match mapFind b kv.1 with
        | some w => (kv.1, kv.2.join w)
        | none => kv)) k =
      match mapFind a k with
      | some v =>
        (match mapFind b k with
         | some w => some (v.join w)
         | none => some v)
      | none => none := by
  induction a with
  | nil => simp [mapFind]
  | cons x rest ih =>
    obtain ⟨k', v'⟩ := x
    by_cases hk : k' = k
    · subst hk
      cases hb : mapFind b k' <;> simp [mapFind, hb]
    · cases hb : mapFind b k' <;> simp [mapFind, hb, hk, ih]

theorem mapFind_filter_absent (a b : MetadataMap) (k : TableId) :
    mapFind (b.filter (fun kv => (mapFind a kv.1).isNone)) k =
      if (mapFind a k).isNone then mapFind b k else none := by
  induction b with
  | nil => simp [mapFind]
  | cons x rest ih =>
    obtain ⟨k', v'⟩ := x
    by_cases hk : k' = k
    · subst hk
      cases ha : mapFind a k' <;> simp [mapFind, List.filter_cons, ha, ih]
    · cases hp : (mapFind a k').isNone <;>
        simp [mapFind, List.filter_cons, hp, hk, ih]

/-- The join of two metadata maps is the pointwise join of lookups. -/
theorem mapFind_mapJoin (a b : MetadataMap) (k : TableId) :
    mapFind (mapJoin a b) k =
      match mapFind a k, mapFind b k with
      | some v, some w => some (v.join w)
      | some v, none => some v
      | none, _ => mapFind b k := by
  rw [mapJoin, mapFind_append, mapFind_map_joinFn, mapFind_filter_absent]
  cases ha : mapFind a k <;> cases hb : mapFind b k <;> simp

/-- Joining a map with itself changes no lookup. -/
theorem mapFind_mapJoin_self (m : MetadataMap) (k : TableId) :
    mapFind (mapJoin m m) k = mapFind m k := by
  rw [mapFind_mapJoin]
  cases h : mapFind m k <;> simp [deletable_join_self]

/-- C9: delete via `write_row` (absent payload) is idempotent and total —
an existing live entry is flagged deleted in place (other keys
untouched); a nonexistent or already-deleted identifier is a successful
no-op; and deleting the same table twice succeeds both times. -/
theorem delete_idempotent (env : AdminEnv) (gen : ConfigGenerator) (shared : MetadataMap)
    (primaryKey : Datum) (tableId : TableId) (entry : Deletable TableMeta)
    (hpk : env.uuidFromDatum primaryKey = .ok tableId) :
    (mapFind shared tableId = some entry → entry.deleted = false →
      (write_row env gen shared primaryKey false none).1 = .ok none ∧
      mapFind (write_row env gen shared primaryKey false none).2 tableId =
        some ⟨entry.value, true⟩ ∧
      (∀ k, k ≠ tableId →
        mapFind (write_row env gen shared primaryKey false none).2 k =
          mapFind shared k)) ∧
    (mapFind shared tableId = none ∨
        (mapFind shared tableId = some entry ∧ entry.deleted = true) →
      (write_row env gen shared primaryKey false none).1 = .ok none ∧
      ∀ k, mapFind (write_row env gen shared primaryKey false none).2 k =
        mapFind shared k) ∧
    (mapFind shared tableId = some entry → entry.deleted = false →
      (write_row env gen
        (write_row env gen shared primaryKey false none).2 primaryKey false none).1 =
          .ok none ∧
      ∀ k, mapFind (write_row env gen
          (write_row env gen shared primaryKey false none).2 primaryKey false none).2 k =
        mapFind (write_row env gen shared primaryKey false none).2 k) := by
  refine ⟨?_, ?_, ?_⟩
  · intro hfind hdel
    have hw : write_row env gen shared primaryKey false none =
        (.ok none, mapJoin shared (mapSet shared tableId ⟨entry.value, true⟩)) := by
      simp [write_row, hpk, write_row_core, hfind, hdel]
    rw [hw]
    refine ⟨rfl, ?_, ?_⟩
    · rw [mapFind_mapJoin, hfind, mapFind_mapSet_self]
      simp [Deletable.join, tableMeta_join_self]
    · intro k hk
      rw [mapFind_mapJoin, mapFind_mapSet_ne _ _ hk]
      cases h2 : mapFind shared k <;> simp [deletable_join_self]
  · intro hcase
    have hw : write_row env gen shared primaryKey false none =
        (.ok none, mapJoin shared shared) := by
      rcases hcase with hnone | ⟨hfind, hdel⟩
      · simp [write_row, hpk, write_row_core, hnone]
      · simp [write_row, hpk, write_row_core, hfind, hdel]
    rw [hw]
    exact ⟨rfl, fun k => mapFind_mapJoin_self shared k⟩
  · intro hfind hdel
    have hw : write_row env gen shared primaryKey false none =
        (.ok none, mapJoin shared (mapSet shared tableId ⟨entry.value, true⟩)) := by
      simp [write_row, hpk, write_row_core, hfind, hdel]
    rw [hw]
    have hfind2 : mapFind (mapJoin shared (mapSet shared tableId ⟨entry.value, true⟩))
        tableId = some ⟨entry.value, true⟩ := by
      rw [mapFind_mapJoin, hfind, mapFind_mapSet_self]
      simp [Deletable.join, tableMeta_join_self]
    have hw2 : write_row env gen
        (mapJoin shared (mapSet shared tableId ⟨entry.value, true⟩)) primaryKey false none =
        (.ok none,
          mapJoin (mapJoin shared (mapSet shared tableId ⟨entry.value, true⟩))
            (mapJoin shared (mapSet shared tableId ⟨entry.value, true⟩))) := by
      simp [write_row, hpk, write_row_core, hfind2]
    rw [hw2]
    exact ⟨rfl, fun k => mapFind_mapJoin_self _ k⟩

/-- Witness for the idempotent-delete claim over the concrete map
`testMeta`: deleting live table 5, deleting nonexistent table 9, and
deleting table 5 twice. -/
theorem delete_idempotent_witness :
    (write_row testEnv testGen testMeta (.num 5) false none).1 = .ok none ∧
    mapFind (write_row testEnv testGen testMeta (.num 5) false none).2 5 =
      some ⟨entryMeta "users" 7 "id" ⟨[⟨[1], 1⟩]⟩ 1, true⟩ ∧
    (write_row testEnv testGen testMeta (.num 9) false none).1 = .ok none ∧
    (write_row testEnv testGen
      (write_row testEnv testGen testMeta (.num 5) false none).2 (.num 5) false none).1 =
        .ok none := by
  have h1 := (delete_idempotent testEnv testGen testMeta (.num 5) 5
    ⟨entryMeta "users" 7 "id" ⟨[⟨[1], 1⟩]⟩ 1, false⟩ rfl).1 rfl rfl
  have h2 := (delete_idempotent testEnv testGen testMeta (.num 9) 9
    ⟨entryMeta "users" 7 "id" ⟨[⟨[1], 1⟩]⟩ 1, false⟩ rfl).2.1 (Or.inl rfl)
  have h3 := (delete_idempotent testEnv testGen testMeta (.num 5) 5
    ⟨entryMeta "users" 7 "id" ⟨[⟨[1], 1⟩]⟩ 1, false⟩ rfl).2.2 rfl rfl
  exact ⟨h1.1, h1.2.1, h2.1, h3.1⟩

theorem write_row_update_no_mutation (env : AdminEnv) (gen : ConfigGenerator)
    (shared : MetadataMap) (tableId : TableId) (auto : Bool) (newValue : Datum)
    (entry : Deletable TableMeta) (msg : String) (m : MetadataMap)
    (h : write_row_update env gen shared tableId auto newValue entry =
      (.userError msg, m)) :
    m = shared := by
  simp only [write_row_update] at h
  repeat' split at h
  all_goals rw [Prod.mk.injEq] at h
  all_goals first
    | exact h.2.symm
    | exact WriteResult.noConfusion h.1

theorem write_row_insert_no_mutation (env : AdminEnv) (gen : ConfigGenerator)
    (shared : MetadataMap) (tableId : TableId) (auto : Bool) (newValue : Datum)
    (tombstone : Bool) (msg : String) (m : MetadataMap)
    (h : write_row_insert env gen shared tableId auto newValue tombstone =
      (.userError msg, m)) :
    m = shared := by
  simp only [write_row_insert] at h
  repeat' split at h
  all_goals rw [Prod.mk.injEq] at h
  all_goals first
    | exact h.2.symm
    | exact WriteResult.noConfusion h.1

theorem write_row_core_no_mutation (env : AdminEnv) (gen : ConfigGenerator)
    (shared : MetadataMap) (tableId : TableId) (auto : Bool) (nv : Option Datum)
    (msg : String) (m : MetadataMap)
    (h : write_row_core env gen shared tableId auto nv = (.userError msg, m)) :
    m = shared := by
  simp only [write_row_core] at h
  repeat' split at h
  all_goals first
    | exact write_row_update_no_mutation _ _ _ _ _ _ _ _ _ h
    | exact write_row_insert_no_mutation _ _ _ _ _ _ _ _ _ h
    | (rw [Prod.mk.injEq] at h
       first
        | exact h.2.symm
        | exact WriteResult.noConfusion h.1)

/-- C4: a `write_row` call that fails with a user error leaves the shared
metadata map untouched — every modification happens on the local snapshot
and the join into the shared map is reached only after all checks pass. -/
theorem write_row_failure_no_mutation (env : AdminEnv) (gen : ConfigGenerator)
    (shared : MetadataMap) (primaryKey : Datum) (auto : Bool) (nv : Option Datum)
    (msg : String) (m : MetadataMap)
    (h : write_row env gen shared primaryKey auto nv = (.userError msg, m)) :
    m = shared := by
  simp only [write_row] at h
  repeat' split at h
  all_goals first
    | exact write_row_core_no_mutation _ _ _ _ _ _ _ _ h
    | (rw [Prod.mk.injEq] at h; exact h.2.symm)

/-- Witness for the no-mutation claim: a concrete failing write (malformed
payload) leaves the concrete shared map exactly as it was. -/
theorem write_row_failure_no_mutation_witness :
    (write_row testEnv testGen testMeta (.num 5) false (some (.obj []))).2 = testMeta :=
  write_row_failure_no_mutation testEnv testGen testMeta (.num 5) false (some (.obj []))
    (wrongFormatMsg ++ missingFieldMsg "name")
    (write_row testEnv testGen testMeta (.num 5) false (some (.obj []))).2 rfl

/-- C3: for an update of an existing table, a payload whose `db` differs
from the stored database's display identity fails with the
database-immutability error; a payload whose `primary_key` differs from
the stored one fails with the primary-key-immutability error; and a
payload matching both (changing only `name` or `shards`) is not rejected
by these checks — it either succeeds or fails only the later
name-collision check. -/
theorem update_immutable_fields (env : AdminEnv) (gen : ConfigGenerator)
    (shared : MetadataMap) (primaryKey : Datum) (tableId : TableId)
    (entry : Deletable TableMeta) (newValue : Datum) (dec : DecodedTable)
    (hpk0 : env.uuidFromDatum primaryKey = .ok tableId)
    (hfind : mapFind shared tableId = some entry)
    (hdel : entry.deleted = false)
    (hdec : convert_table_config_and_name_from_datum env gen true shared newValue =
      .ok dec)
    (hid : dec.id = tableId) :
    (Datum.beq dec.db (env.getDbIdentifier entry.value.database.value) = false →
      write_row env gen shared primaryKey false (some newValue) =
        (.userError "It's illegal to change a table's `database` field.", shared)) ∧
    (Datum.beq dec.db (env.getDbIdentifier entry.value.database.value) = true →
      dec.primaryKey ≠ entry.value.primaryKey.value →
      write_row env gen shared primaryKey false (some newValue) =
        (.userError "It's illegal to change a table's primary key.", shared)) ∧
    (Datum.beq dec.db (env.getDbIdentifier entry.value.database.value) = true →
      dec.primaryKey = entry.value.primaryKey.value →
      ∀ scheme, env.calculateSplitPoints tableId dec.config.shards.length
          entry.value.replicationInfo.value.shardScheme = .ok scheme →
      (∃ row m, write_row env gen shared primaryKey false (some newValue) =
        (.ok (some row), m)) ∨
      (dec.tableName ≠ entry.value.name.value ∧
       nameCollision shared dec.tableName entry.value.database.value = true ∧
       write_row env gen shared primaryKey false (some newValue) =
        (.userError (renameCollisionMsg (env.getDbName entry.value.database.value)
          entry.value.name.value dec.tableName), shared))) := by
  have hred : write_row env gen shared primaryKey false (some newValue) =
      write_row_update env gen shared tableId false newValue entry := by
    simp [write_row, hpk0, write_row_core, hfind, hdel]
  refine ⟨?_, ?_, ?_⟩
  · intro hbeq
    rw [hred]
    simp [write_row_update, hdec, hid, hbeq]
  · intro hbeq hpkne
    rw [hred]
    simp [write_row_update, hdec, hid, hbeq, hpkne]
  · intro hbeq hpkeq hscheme hsplit
    rw [hred]
    by_cases hcond : dec.tableName ≠ entry.value.name.value ∧
        nameCollision shared dec.tableName entry.value.database.value = true
    · refine Or.inr ⟨hcond.1, hcond.2, ?_⟩
      simp only [write_row_update, hdec]
      simp [hid, hbeq, hpkeq, hsplit, hcond.1, hcond.2]
    · left
      simp only [write_row_update, hdec]
      simp [hid, hbeq, hpkeq, hsplit, hcond]

/-- C5: creating a new table (auto-generated key, fresh id) with a decoded
configuration of more or fewer than one shard fails with the user error
"Newly created tables must start with exactly one shard"; with exactly one
shard the new entry is inserted carrying the trivial single-shard
scheme. -/
theorem create_single_shard (env : AdminEnv) (gen : ConfigGenerator)
    (shared : MetadataMap) (primaryKey : Datum) (tableId : TableId)
    (newValue : Datum) (dec : DecodedTable) (dbId : DatabaseId)
    (hpk0 : env.uuidFromDatum primaryKey = .ok tableId)
    (hfind : mapFind shared tableId = none)
    (hdec : convert_table_config_and_name_from_datum env gen false shared newValue =
      .ok dec)
    (hid : dec.id = tableId)
    (hdb : env.resolveDbFromDatum dec.db = .ok dbId) :
    (dec.config.shards.length ≠ 1 →
      write_row env gen shared primaryKey true (some newValue) =
        (.userError "Newly created tables must start with exactly one shard", shared)) ∧
    (dec.config.shards.length = 1 →
      nameCollision shared dec.tableName dbId = false →
      write_row env gen shared primaryKey true (some newValue) =
        (.ok (some (format_row env tableId dec.tableName (env.getDbIdentifier dbId)
            (freshTableMeta dec dbId))),
         mapJoin shared (mapSet shared tableId ⟨freshTableMeta dec dbId, false⟩)) ∧
      mapFind (write_row env gen shared primaryKey true (some newValue)).2 tableId =
        some ⟨freshTableMeta dec dbId, false⟩ ∧
      (freshTableMeta dec dbId).replicationInfo.value.shardScheme = oneShardScheme) := by
  have hred : write_row env gen shared primaryKey true (some newValue) =
      write_row_insert env gen shared tableId true newValue false := by
    simp [write_row, hpk0, write_row_core, hfind]
  refine ⟨?_, ?_⟩
  · intro hlen
    rw [hred]
    simp [write_row_insert, hdec, hid, hdb, hlen]
  · intro hlen hcol
    have hw : write_row env gen shared primaryKey true (some newValue) =
        (.ok (some (format_row env tableId dec.tableName (env.getDbIdentifier dbId)
            (freshTableMeta dec dbId))),
         mapJoin shared (mapSet shared tableId ⟨freshTableMeta dec dbId, false⟩)) := by
      rw [hred]
      simp [write_row_insert, hdec, hid, hdb, hlen, hcol]
    refine ⟨hw, ?_, rfl⟩
    rw [hw]
    rw [mapFind_mapJoin, hfind, mapFind_mapSet_self]

/-- C7: a write that creates a table, or renames an existing one, searches
the non-deleted entries of the same database for the new name: on a match
the create case fails with the "already exists" message and the rename
case with the "cannot rename" message; an update that keeps the stored
name performs no name-collision check and succeeds even if another table
carries that name. -/
theorem name_collision_checks (env : AdminEnv) (gen : ConfigGenerator)
    (shared : MetadataMap) (primaryKey : Datum) (tableId : TableId) :
    (∀ newValue dec dbId,
      env.uuidFromDatum primaryKey = .ok tableId →
      mapFind shared tableId = none →
      convert_table_config_and_name_from_datum env gen false shared newValue = .ok dec →
      dec.id = tableId →
      env.resolveDbFromDatum dec.db = .ok dbId →
      dec.config.shards.length = 1 →
      nameCollision shared dec.tableName dbId = true →
      write_row env gen shared primaryKey true (some newValue) =
        (.userError (createCollisionMsg (env.getDbName dbId) dec.tableName), shared)) ∧
    (∀ newValue dec entry scheme,
      env.uuidFromDatum primaryKey = .ok tableId →
      mapFind shared tableId = some entry →
      entry.deleted = false →
      convert_table_config_and_name_from_datum env gen true shared newValue = .ok dec →
      dec.id = tableId →
      Datum.beq dec.db (env.getDbIdentifier entry.value.database.value) = true →
      dec.primaryKey = entry.value.primaryKey.value →
      env.calculateSplitPoints tableId dec.config.shards.length
        entry.value.replicationInfo.value.shardScheme = .ok scheme →
      dec.tableName ≠ entry.value.name.value →
      nameCollision shared dec.tableName entry.value.database.value = true →
      write_row env gen shared primaryKey false (some newValue) =
        (.userError (renameCollisionMsg (env.getDbName entry.value.database.value)
          entry.value.name.value dec.tableName), shared)) ∧
    (∀ newValue dec entry scheme,
      env.uuidFromDatum primaryKey = .ok tableId →
      mapFind shared tableId = some entry →
      entry.deleted = false →
      convert_table_config_and_name_from_datum env gen true shared newValue = .ok dec →
      dec.id = tableId →
      Datum.beq dec.db (env.getDbIdentifier entry.value.database.value) = true →
      dec.primaryKey = entry.value.primaryKey.value →
      env.calculateSplitPoints tableId dec.config.shards.length
        entry.value.replicationInfo.value.shardScheme = .ok scheme →
      dec.tableName = entry.value.name.value →
      ∃ row m, write_row env gen shared primaryKey false (some newValue) =
        (.ok (some row), m)) := by
  refine ⟨?_, ?_, ?_⟩
  · intro newValue dec dbId hpk0 hfind hdec hid hdb hlen hcol
    have hred : write_row env gen shared primaryKey true (some newValue) =
        write_row_insert env gen shared tableId true newValue false := by
      simp [write_row, hpk0, write_row_core, hfind]
    rw [hred]
    simp [write_row_insert, hdec, hid, hdb, hlen, hcol]
  · intro newValue dec entry scheme hpk0 hfind hdel hdec hid hbeq hpkeq hsplit hne hcol
    have hred : write_row env gen shared primaryKey false (some newValue) =
        write_row_update env gen shared tableId false newValue entry := by
      simp [write_row, hpk0, write_row_core, hfind, hdel]
    rw [hred]
    simp only [write_row_update, hdec]
    simp [hid, hbeq, hpkeq, hsplit, hne, hcol]
  · intro newValue dec entry scheme hpk0 hfind hdel hdec hid hbeq hpkeq hsplit heq
    have hred : write_row env gen shared primaryKey false (some newValue) =
        write_row_update env gen shared tableId false newValue entry := by
      simp [write_row, hpk0, write_row_core, hfind, hdel]
    rw [hred]
    simp only [write_row_update, hdec]
    simp [hid, hbeq, hpkeq, hsplit, heq]

/-- Witness for the immutable-fields claim: concrete updates of table 5
changing `db`, changing `primary_key`, and changing nothing but possibly
`name`/`shards`. -/
theorem update_immutable_fields_witness :
    write_row testEnv testGen testMeta (.num 5) false
        (some (updateDoc "users" "dbX" "id")) =
      (.userError "It's illegal to change a table's `database` field.", testMeta) ∧
    write_row testEnv testGen testMeta (.num 5) false
        (some (updateDoc "users" "db7" "other")) =
      (.userError "It's illegal to change a table's primary key.", testMeta) ∧
    ((∃ row m, write_row testEnv testGen testMeta (.num 5) false
        (some (updateDoc "users" "db7" "id")) = (.ok (some row), m)) ∨
     (DecodedTable.tableName ⟨"users", .str "db7", 5, ⟨[⟨[1, 2], 1⟩]⟩, "id"⟩ ≠ "users" ∧
      nameCollision testMeta "users" 7 = true ∧
      write_row testEnv testGen testMeta (.num 5) false
        (some (updateDoc "users" "db7" "id")) =
        (.userError (renameCollisionMsg "db7" "users" "users"), testMeta))) := by
  refine ⟨?_, ?_, ?_⟩
  · exact (update_immutable_fields testEnv testGen testMeta (.num 5) 5
      ⟨entryMeta "users" 7 "id" ⟨[⟨[1], 1⟩]⟩ 1, false⟩ (updateDoc "users" "dbX" "id")
      ⟨"users", .str "dbX", 5, ⟨[⟨[1, 2], 1⟩]⟩, "id"⟩ rfl rfl rfl rfl rfl).1 rfl
  · exact (update_immutable_fields testEnv testGen testMeta (.num 5) 5
      ⟨entryMeta "users" 7 "id" ⟨[⟨[1], 1⟩]⟩ 1, false⟩ (updateDoc "users" "db7" "other")
      ⟨"users", .str "db7", 5, ⟨[⟨[1, 2], 1⟩]⟩, "other"⟩ rfl rfl rfl rfl rfl).2.1 rfl
      (by decide)
  · exact (update_immutable_fields testEnv testGen testMeta (.num 5) 5
      ⟨entryMeta "users" 7 "id" ⟨[⟨[1], 1⟩]⟩ 1, false⟩ (updateDoc "users" "db7" "id")
      ⟨"users", .str "db7", 5, ⟨[⟨[1, 2], 1⟩]⟩, "id"⟩ rfl rfl rfl rfl rfl).2.2 rfl rfl
      1 rfl

/-- Witness for the single-shard-on-create claim: creating table 10 with
two shards fails; with one shard it is inserted with the trivial
scheme. -/
theorem create_single_shard_witness :
    write_row testEnv testGen testMeta (.num 10) true
        (some (createDoc "fresh" [shardDocOK, shardDocC])) =
      (.userError "Newly created tables must start with exactly one shard", testMeta) ∧
    mapFind (write_row testEnv testGen testMeta (.num 10) true
        (some (createDoc "fresh" [shardDocOK]))).2 10 =
      some ⟨freshTableMeta ⟨"fresh", .str "db7", 10, ⟨[⟨[1, 2], 1⟩]⟩, "id"⟩ 7, false⟩ ∧
    (freshTableMeta ⟨"fresh", .str "db7", 10, ⟨[⟨[1, 2], 1⟩]⟩, "id"⟩
        7).replicationInfo.value.shardScheme = oneShardScheme := by
  refine ⟨?_, ?_, ?_⟩
  · exact (create_single_shard testEnv testGen testMeta (.num 10) 10
      (createDoc "fresh" [shardDocOK, shardDocC])
      ⟨"fresh", .str "db7", 10, ⟨[⟨[1, 2], 1⟩, ⟨[3], 3⟩]⟩, "id"⟩ 7
      rfl rfl rfl rfl rfl).1 (by decide)
  · exact ((create_single_shard testEnv testGen testMeta (.num 10) 10
      (createDoc "fresh" [shardDocOK])
      ⟨"fresh", .str "db7", 10, ⟨[⟨[1, 2], 1⟩]⟩, "id"⟩ 7
      rfl rfl rfl rfl rfl).2 rfl rfl).2.1
  · exact ((create_single_shard testEnv testGen testMeta (.num 10) 10
      (createDoc "fresh" [shardDocOK])
      ⟨"fresh", .str "db7", 10, ⟨[⟨[1, 2], 1⟩]⟩, "id"⟩ 7
      rfl rfl rfl rfl rfl).2 rfl rfl).2.2

/-- Witness for the name-collision claim: creating a second "users" in
db7 fails, renaming "users" onto "posts" fails, and an update keeping
the name "users" succeeds. -/
theorem name_collision_checks_witness :
    write_row testEnv testGen testMeta (.num 10) true
        (some (createDoc "users" [shardDocOK])) =
      (.userError (createCollisionMsg "db7" "users"), testMeta) ∧
    write_row testEnv testGen testMeta (.num 5) false
        (some (updateDoc "posts" "db7" "id")) =
      (.userError (renameCollisionMsg "db7" "users" "posts"), testMeta) ∧
    (∃ row m, write_row testEnv testGen testMeta (.num 5) false
        (some (updateDoc "users" "db7" "id")) = (.ok (some row), m)) := by
  refine ⟨?_, ?_, ?_⟩
  · exact (name_collision_checks testEnv testGen testMeta (.num 10) 10).1
      (createDoc "users" [shardDocOK])
      ⟨"users", .str "db7", 10, ⟨[⟨[1, 2], 1⟩]⟩, "id"⟩ 7
      rfl rfl rfl rfl rfl rfl rfl
  · exact (name_collision_checks testEnv testGen testMeta (.num 5) 5).2.1
      (updateDoc "posts" "db7" "id")
      ⟨"posts", .str "db7", 5, ⟨[⟨[1, 2], 1⟩]⟩, "id"⟩
      ⟨entryMeta "users" 7 "id" ⟨[⟨[1], 1⟩]⟩ 1, false⟩ 1
      rfl rfl rfl rfl rfl rfl rfl rfl (by decide) rfl
  · exact (name_collision_checks testEnv testGen testMeta (.num 5) 5).2.2
      (updateDoc "users" "db7" "id")
      ⟨"users", .str "db7", 5, ⟨[⟨[1, 2], 1⟩]⟩, "id"⟩
      ⟨entryMeta "users" 7 "id" ⟨[⟨[1], 1⟩]⟩ 1, false⟩ 1
      rfl rfl rfl rfl rfl rfl rfl rfl rfl

end TableConfigSpec
